import Mathlib

/-!
Shallow embedding of the Earth Engine script
"Image Direct Measurements- Atlanta/LST and NDVI Atlanta.js".

A raster band is modelled as a function from pixel index to an optional
rational value (`none` is the no-data / masked sentinel).  An image is a
named list of bands together with its capture timestamp, cloud-cover
percentage and spatial footprint.  The Earth Engine library operations the
script calls (filterBounds / filterDate / ee.Filter.lt, the median reducer,
ee.Reducer.mean and ee.Reducer.pearsonsCorrelation inside
ui.Chart.image.series) are modelled with their documented semantics, which
is what the specification describes; the script code itself (addNdvi,
addLST, the filter chain, the composites) is translated directly.
-/

namespace LstNdvi

/-- A raster band: pixel index to optional value; `none` is no-data. -/
abbrev Band := Nat → Option ℚ

/-- A region of interest: the list of pixel indices it covers. -/
abbrev Region := List Nat

/-- A raster scene: named bands, capture timestamp (ms since epoch),
cloud-cover percentage, and the scene footprint as pixel indices. -/
structure Image where
  bands : List (String × Band)
  timeStart : Int
  cloudCover : ℚ
  footprint : List Nat

/-- Look up a band by name in a band list (first match wins, as in
ee.Image.select on a single name). -/
def lookupBand (bs : List (String × Band)) (name : String) : Option Band :=
  (bs.find? (fun b => b.1 == name)).map Prod.snd

/-- image.select(name): the named band of an image. -/
def getBand (img : Image) (name : String) : Option Band :=
  lookupBand img.bands name

/-- The value of the named band of an image at pixel p; `none` if the band
is absent or the pixel is masked. -/
def getValue (img : Image) (name : String) (p : Nat) : Option ℚ :=
  match getBand img name with
  | none => none
  | some b => b p

/-- The per-pixel NDVI expression (NIR - RED) / (NIR + RED), scaled by 100:
masked when either input is masked or the denominator is zero (Earth
Engine masks a pixel on division by zero rather than faulting). -/
def ndviExpr (nir red : Option ℚ) : Option ℚ :=
  match nir, red with
  | some n, some r => if n + r = 0 then none else some ((n - r) / (n + r) * 100)
  | _, _ => none

/-- The NDVI band computed by addNdvi from the SR_B5 (NIR) and SR_B4 (RED)
raw bands. -/
def ndviBand (img : Image) : Band := fun p =>
  ndviExpr (getValue img "SR_B5" p) (getValue img "SR_B4" p)

/-- addNdvi: appends the NDVI band to the image (image.addBands(ndvi)). -/
def addNdvi (img : Image) : Image :=
  { img with bands := img.bands ++ [("NDVI", ndviBand img)] }

/-- The radiometric scale factor 0.00341802 of the ST_B10 thermal band. -/
def lstScale : ℚ := 341802 / 100000000

/-- The LST formula: raw digital number to Kelvin (scale and offset 149.0),
then Kelvin to Celsius by subtracting 273. -/
def lstOf (d : ℚ) : ℚ := d * lstScale + 149 - 273

/-- The LST band computed by addLST from the ST_B10 raw band. -/
def lstBand (img : Image) : Band := fun p =>
  (getValue img "ST_B10" p).map lstOf

/-- addLST: appends the LST band to the image (image.addBands(lst)). -/
def addLST (img : Image) : Image :=
  { img with bands := img.bands ++ [("LST", lstBand img)] }

/-- filterBounds: a scene passes when its footprint intersects the region. -/
def intersectsRegion (img : Image) (region : Region) : Bool :=
  img.footprint.any (fun p => region.contains p)

/-- The predicate of the script filter chain: filterBounds(atlGeom),
filterDate(start, end) (start inclusive, end exclusive, as documented for
ee.ImageCollection.filterDate), and ee.Filter.lt(CLOUD_COVER, max)
(strictly below the threshold). -/
def sceneOk (region : Region) (startT endT : Int) (maxCloud : ℚ) (img : Image) : Bool :=
  intersectsRegion img region
    && decide (startT ≤ img.timeStart)
    && decide (img.timeStart < endT)
    && decide (img.cloudCover < maxCloud)

/-- The scene filter: keep exactly the scenes passing all three tests,
preserving collection order. -/
def sceneFilter (raw : List Image) (region : Region) (startT endT : Int)
    (maxCloud : ℚ) : List Image :=
  raw.filter (sceneOk region startT endT maxCloud)

/-- landsatCollection: the script pipeline — filter the archive to the
Atlanta geometry, the decade 2014-01-01 to 2023-12-31 and cloud cover
below 15, then map addNdvi and addLST over the collection. -/
def landsatCollection (raw : List Image) (atlGeom : Region) : List Image :=
  ((sceneFilter raw atlGeom 1388534400000 1703980800000 15).map addNdvi).map addLST

/-- Insert a value into a sorted list of rationals. -/
def insertLe (x : ℚ) : List ℚ → List ℚ
  | [] => [x]
  | y :: t => if x ≤ y then x :: y :: t else y :: insertLe x t

/-- Insertion sort for rationals (ascending). -/
def sortQ : List ℚ → List ℚ
  | [] => []
  | x :: t => insertLe x (sortQ t)

/-- The median of a sorted list: `none` on the empty list, the middle
order statistic for odd length, the mean of the two central order
statistics for even length. -/
def medianOfSorted (s : List ℚ) : Option ℚ :=
  if s.length = 0 then none
  else if s.length % 2 = 1 then s[s.length / 2]?
  else
    match s[s.length / 2 - 1]?, s[s.length / 2]? with
    | some a, some b => some ((a + b) / 2)
    | _, _ => none

/-- The median of a list of valid values (the convention of the median
reducer: sort, middle order statistic, averaging the central two for even
counts). -/
def medianQ (l : List ℚ) : Option ℚ := medianOfSorted (sortQ l)

/-- The valid values a collection contributes to a band at a pixel:
the scenes whose named band is present and unmasked there. -/
def contributions (coll : List Image) (b : String) (p : Nat) : List ℚ :=
  coll.filterMap (fun img => getValue img b p)

/-- collection.select(b).median().clip(region): per-pixel median of the
valid values across the collection, restricted to the region. -/
def medianComposite (coll : List Image) (b : String) (region : Region) : Band :=
  fun p => if region.contains p then medianQ (contributions coll b p) else none

/-- ndviImage: the NDVI median composite clipped to the Atlanta geometry. -/
def ndviImage (coll : List Image) (atlGeom : Region) : Band :=
  medianComposite coll "NDVI" atlGeom

/-- lstImage: the LST median composite clipped to the Atlanta geometry. -/
def lstImage (coll : List Image) (atlGeom : Region) : Band :=
  medianComposite coll "LST" atlGeom

/-- The valid values of a band inside a region for one scene. -/
def validValues (img : Image) (region : Region) (b : String) : List ℚ :=
  region.filterMap (fun p => getValue img b p)

/-- The valid pixel pairs of two bands inside a region for one scene:
pixels where both bands are unmasked. -/
def validPairs (img : Image) (region : Region) (b1 b2 : String) : List (ℚ × ℚ) :=
  region.filterMap (fun p =>
    match getValue img b1 p, getValue img b2 p with
    | some x, some y => some (x, y)
    | _, _ => none)

/-- ee.Reducer.mean over a region: unweighted mean of the valid values,
`none` when no valid pixel falls inside the region. -/
def meanQ (l : List ℚ) : Option ℚ :=
  if l.isEmpty then none else some (l.sum / (l.length : ℚ))

/-- The mean-aggregation time series (ui.Chart.image.series with
ee.Reducer.mean): one (timestamp, value) entry per scene, in collection
order. -/
def meanSeries (coll : List Image) (region : Region) (b : String) :
    List (Int × Option ℚ) :=
  coll.map (fun img => (img.timeStart, meanQ (validValues img region b)))

/-- The mean of a list of rationals (0 on the empty list, never reached by
the guarded uses below). -/
def listMean (xs : List ℚ) : ℚ := xs.sum / (xs.length : ℚ)

/-- The sum of squared deviations from the mean. -/
def sqDev (xs : List ℚ) : ℚ :=
  (xs.map (fun x => (x - listMean xs) * (x - listMean xs))).sum

/-- The x sum of squared deviations of a list of pixel pairs. -/
def pairsVarX (ps : List (ℚ × ℚ)) : ℚ := sqDev (ps.map Prod.fst)

/-- The y sum of squared deviations of a list of pixel pairs. -/
def pairsVarY (ps : List (ℚ × ℚ)) : ℚ := sqDev (ps.map Prod.snd)

/-- The sum of products of deviations of the pairs. -/
def pairsCov (ps : List (ℚ × ℚ)) : ℚ :=
  (ps.map (fun q =>
    (q.1 - listMean (ps.map Prod.fst)) * (q.2 - listMean (ps.map Prod.snd)))).sum

/-- ee.Reducer.pearsonsCorrelation over the pixel pairs of one scene inside
a region: no-data when fewer than 2 pairs or when either band has zero
variance (division by zero must not fault), otherwise the Pearson r. -/
noncomputable def pearsonR (ps : List (ℚ × ℚ)) : Option ℝ :=
  if ps.length < 2 ∨ pairsVarX ps = 0 ∨ pairsVarY ps = 0 then none
  else some ((pairsCov ps : ℝ) / Real.sqrt ((pairsVarX ps : ℝ) * (pairsVarY ps : ℝ)))

/-- The correlation time series (ui.Chart.image.series with
ee.Reducer.pearsonsCorrelation on the LST and NDVI bands): one entry per
scene, in collection order, each the spatial correlation across the
scene's pixel pairs inside the region. -/
noncomputable def correlSeries (coll : List Image) (region : Region) :
    List (Int × Option ℝ) :=
  coll.map (fun img => (img.timeStart, pearsonR (validPairs img region "LST" "NDVI")))

/-! Concrete test scenes used to exercise the theorems below on closed
inputs. -/

/-- A scene whose LST and NDVI pixel values are perfectly anti-correlated
over three pixels: LST values 0, 1, 2 and NDVI values 4, 3, 2. -/
def imgAnti : Image :=
  { bands := [("LST", fun p => if p = 0 then some 0 else if p = 1 then some 1 else some 2),
              ("NDVI", fun p => if p = 0 then some 4 else if p = 1 then some 3 else some 2)]
    timeStart := 100
    cloudCover := 0
    footprint := [0, 1, 2] }

/-- A scene contributing a single valid pixel pair (pixel 0 only). -/
def imgDeg : Image :=
  { bands := [("LST", fun p => if p = 0 then some 1 else none),
              ("NDVI", fun p => if p = 0 then some 2 else none)]
    timeStart := 50
    cloudCover := 0
    footprint := [0] }

/-- A raw scene with SR_B5, SR_B4 and ST_B10 bands: pixel 0 has
NIR = 6, RED = 2; pixel 1 has NIR = RED = 3; pixel 2 has NIR = 1,
RED = -1 (zero denominator). -/
def imgRaw : Image :=
  { bands := [("SR_B5", fun p => if p = 0 then some 6 else if p = 1 then some 3 else some 1),
              ("SR_B4", fun p => if p = 0 then some 2 else if p = 1 then some 3 else some (-1)),
              ("ST_B10", fun _ => some 30000)]
    timeStart := 0
    cloudCover := 0
    footprint := [0, 1, 2] }

/-- A scene whose NDVI band is 10 everywhere. -/
def imgTen : Image :=
  { bands := [("NDVI", fun _ => some 10)], timeStart := 1, cloudCover := 0, footprint := [0] }

/-- A scene whose NDVI band is 20 everywhere. -/
def imgTwenty : Image :=
  { bands := [("NDVI", fun _ => some 20)], timeStart := 2, cloudCover := 0, footprint := [0] }

/-- A scene whose NDVI band is fully masked. -/
def imgMasked : Image :=
  { bands := [("NDVI", fun _ => none)], timeStart := 3, cloudCover := 0, footprint := [0] }

/-- A scene passing the filter: intersects region [0], cloud cover 5. -/
def imgClear : Image :=
  { bands := [], timeStart := 10, cloudCover := 5, footprint := [0] }

/-- A scene rejected by the cloud filter: cloud cover 20. -/
def imgCloudy : Image :=
  { bands := [], timeStart := 20, cloudCover := 20, footprint := [0] }

end LstNdvi

namespace LstNdvi

/-! Helper lemmas about band lookup. -/

lemma lookupBand_append_of_notmem (bs bs2 : List (String × Band)) (n : String)
    (h : ∀ x ∈ bs2, (x.1 == n) = false) :
    lookupBand (bs ++ bs2) n = lookupBand bs n := by
  unfold lookupBand
  rw [List.find?_append]
  have h2 : bs2.find? (fun b => b.1 == n) = none := by
    rw [List.find?_eq_none]
    intro x hx
    simp [h x hx]
  rw [h2]
  cases bs.find? (fun b => b.1 == n) <;> rfl

lemma lookupBand_append_of_isSome (bs bs2 : List (String × Band)) (n : String)
    (h : (bs.find? (fun b => b.1 == n)).isSome) :
    lookupBand (bs ++ bs2) n = lookupBand bs n := by
  unfold lookupBand
  rw [List.find?_append]
  cases hb : bs.find? (fun b => b.1 == n) with
  | none => rw [hb] at h; simp at h
  | some v => rfl

lemma lookupBand_append_of_none (bs bs2 : List (String × Band)) (n : String)
    (h : bs.find? (fun b => b.1 == n) = none) :
    lookupBand (bs ++ bs2) n = lookupBand bs2 n := by
  unfold lookupBand
  rw [List.find?_append, h]
  rfl

lemma getValue_append_single (img : Image) (nm : String) (b : Band) (n : String)
    (hn : nm ≠ n) (p : Nat) :
    getValue { img with bands := img.bands ++ [(nm, b)] } n p = getValue img n p := by
  unfold getValue getBand
  have : lookupBand (img.bands ++ [(nm, b)]) n = lookupBand img.bands n := by
    apply lookupBand_append_of_notmem
    intro x hx
    simp only [List.mem_singleton] at hx
    subst hx
    simp [hn]
  rw [this]

lemma ndviBand_addLST (img : Image) : ndviBand (addLST img) = ndviBand img := by
  funext p
  unfold ndviBand
  rw [show addLST img = { img with bands := img.bands ++ [("LST", lstBand img)] } from rfl]
  rw [getValue_append_single img "LST" (lstBand img) "SR_B5" (by decide) p]
  rw [getValue_append_single img "LST" (lstBand img) "SR_B4" (by decide) p]

lemma lstBand_addNdvi (img : Image) : lstBand (addNdvi img) = lstBand img := by
  funext p
  unfold lstBand
  rw [show addNdvi img = { img with bands := img.bands ++ [("NDVI", ndviBand img)] } from rfl]
  rw [getValue_append_single img "NDVI" (ndviBand img) "ST_B10" (by decide) p]

lemma bands_addLST_addNdvi (img : Image) :
    (addLST (addNdvi img)).bands
      = img.bands ++ [("NDVI", ndviBand img), ("LST", lstBand img)] := by
  show (addNdvi img).bands ++ [("LST", lstBand (addNdvi img))]
      = img.bands ++ [("NDVI", ndviBand img), ("LST", lstBand img)]
  rw [lstBand_addNdvi]
  show img.bands ++ [("NDVI", ndviBand img)] ++ [("LST", lstBand img)] = _
  rw [List.append_assoc]
  rfl

lemma bands_addNdvi_addLST (img : Image) :
    (addNdvi (addLST img)).bands
      = img.bands ++ [("LST", lstBand img), ("NDVI", ndviBand img)] := by
  show (addLST img).bands ++ [("NDVI", ndviBand (addLST img))]
      = img.bands ++ [("LST", lstBand img), ("NDVI", ndviBand img)]
  rw [ndviBand_addLST]
  show img.bands ++ [("LST", lstBand img)] ++ [("NDVI", ndviBand img)] = _
  rw [List.append_assoc]
  rfl

lemma find?_isSome_of_mem_names (bs : List (String × Band)) (n : String)
    (h : n ∈ bs.map Prod.fst) : (bs.find? (fun b => b.1 == n)).isSome := by
  rw [List.find?_isSome]
  rcases List.mem_map.mp h with ⟨x, hx, hfst⟩
  exact ⟨x, hx, by simp [hfst]⟩

lemma lookup_swap_pair (bs : List (String × Band)) (n1 n2 : String) (b1 b2 : Band)
    (hne : n1 ≠ n2) (n : String) :
    lookupBand (bs ++ [(n1, b1), (n2, b2)]) n
      = lookupBand (bs ++ [(n2, b2), (n1, b1)]) n := by
  cases hb : bs.find? (fun b => b.1 == n) with
  | some v =>
    rw [lookupBand_append_of_isSome bs _ n (by rw [hb]; rfl),
        lookupBand_append_of_isSome bs _ n (by rw [hb]; rfl)]
  | none =>
    rw [lookupBand_append_of_none bs _ n hb, lookupBand_append_of_none bs _ n hb]
    unfold lookupBand
    by_cases h1 : n1 = n
    · have h2 : ¬n2 = n := fun h => hne (h1.trans h.symm)
      simp [List.find?_cons, h1, h2]
    · by_cases h2 : n2 = n
      · simp [List.find?_cons, h1, h2]
      · simp [List.find?_cons, h1, h2]

/-- C3: the derived NDVI band value equals (NIR - RED) / (NIR + RED) x 100
computed from the pixel's SR_B5 and SR_B4 values; when NIR = RED with
nonzero NIR the value is exactly 0, and when NIR + RED = 0 the value is
the no-data sentinel, never a fault, so the band is total over the grid. -/
theorem ndvi_formula (img : Image) (p : Nat) (nir red : ℚ)
    (h5 : getValue img "SR_B5" p = some nir)
    (h4 : getValue img "SR_B4" p = some red) :
    (nir + red ≠ 0 → ndviBand img p = some ((nir - red) / (nir + red) * 100)) ∧
    (nir = red → nir ≠ 0 → ndviBand img p = some 0) ∧
    (nir + red = 0 → ndviBand img p = none) := by
  unfold ndviBand ndviExpr
  rw [h5, h4]
  refine ⟨?_, ?_, ?_⟩
  · intro h; simp [h]
  · intro he hz
    subst he
    have hsum : nir + nir ≠ 0 := fun h => hz (by linarith)
    simp [hsum]
  · intro h; simp [h]

/-- Evaluates ndvi_formula on the concrete scene imgRaw: pixel 0 gives
(6-2)/(6+2)x100 = 50, pixel 1 (NIR = RED = 3) gives 0, pixel 2
(NIR + RED = 0) gives no-data. -/
theorem ndvi_formula_witness :
    ndviBand imgRaw 0 = some 50 ∧ ndviBand imgRaw 1 = some 0 ∧
    ndviBand imgRaw 2 = none := by
  have h0 := ndvi_formula imgRaw 0 6 2 rfl rfl
  have h1 := ndvi_formula imgRaw 1 3 3 rfl rfl
  have h2 := ndvi_formula imgRaw 2 1 (-1) rfl rfl
  refine ⟨?_, h1.2.1 rfl (by norm_num), h2.2.2 (by norm_num)⟩
  rw [h0.1 (by norm_num)]
  norm_num

/-- C4: the derived LST band value equals d x 0.00341802 + 149.0 - 273.0
for raw thermal digital number d, and LST(30000) = -21.4594 exactly in
rational arithmetic. -/
theorem lst_formula (img : Image) (p : Nat) (d : ℚ)
    (h : getValue img "ST_B10" p = some d) :
    lstBand img p = some (d * (341802 / 100000000) + 149 - 273) ∧
    lstOf 30000 = -214594 / 10000 := by
  constructor
  · unfold lstBand; rw [h]; rfl
  · unfold lstOf lstScale; norm_num

/-- Evaluates lst_formula on imgRaw, whose ST_B10 value is 30000
everywhere: the LST band value is -21.4594. -/
theorem lst_formula_witness : lstBand imgRaw 0 = some (-214594 / 10000) := by
  have h := lst_formula imgRaw 0 30000 rfl
  rw [h.1]
  norm_num

/-- C8: the derivation only appends the NDVI and LST bands: every
pre-existing band is still present with unchanged name and per-pixel
values, and the timestamp and cloud-cover metadata are unchanged. -/
theorem band_derivation_frame (img : Image) :
    (addLST (addNdvi img)).bands
        = img.bands ++ [("NDVI", ndviBand img), ("LST", lstBand img)] ∧
    (∀ nb, nb ∈ img.bands → nb ∈ (addLST (addNdvi img)).bands) ∧
    (∀ n, n ∈ img.bands.map Prod.fst →
        getBand (addLST (addNdvi img)) n = getBand img n) ∧
    (∀ n p, n ∈ img.bands.map Prod.fst →
        getValue (addLST (addNdvi img)) n p = getValue img n p) ∧
    (addLST (addNdvi img)).timeStart = img.timeStart ∧
    (addLST (addNdvi img)).cloudCover = img.cloudCover := by
  have hb := bands_addLST_addNdvi img
  have hgb : ∀ n, n ∈ img.bands.map Prod.fst →
      getBand (addLST (addNdvi img)) n = getBand img n := by
    intro n hn
    unfold getBand
    rw [hb]
    exact lookupBand_append_of_isSome _ _ _ (find?_isSome_of_mem_names _ _ hn)
  refine ⟨hb, ?_, hgb, ?_, rfl, rfl⟩
  · intro nb h
    rw [hb]
    exact List.mem_append_left _ h
  · intro n p hn
    unfold getValue
    rw [hgb n hn]

/-- Evaluates band_derivation_frame on imgRaw: the raw SR_B5 value at
pixel 0 is still 6 after derivation, and the timestamp is unchanged. -/
theorem band_derivation_frame_witness :
    getValue (addLST (addNdvi imgRaw)) "SR_B5" 0 = some 6 ∧
    (addLST (addNdvi imgRaw)).timeStart = 0 := by
  have h := band_derivation_frame imgRaw
  constructor
  · rw [h.2.2.2.1 "SR_B5" 0 (by decide)]
    rfl
  · rw [h.2.2.2.2.1]; rfl

/-- C10: addNdvi and addLST commute: either order yields the same
per-pixel value for every band name, the appended bands differing only in
listed order; the NDVI band reads only SR_B5 and SR_B4 and the LST band
reads only ST_B10, so neither depends on the other. -/
theorem derivation_commutes (img : Image) :
    (∀ n p, getValue (addLST (addNdvi img)) n p
        = getValue (addNdvi (addLST img)) n p) ∧
    (addLST (addNdvi img)).bands.map Prod.fst
        = img.bands.map Prod.fst ++ ["NDVI", "LST"] ∧
    (addNdvi (addLST img)).bands.map Prod.fst
        = img.bands.map Prod.fst ++ ["LST", "NDVI"] ∧
    (addLST (addNdvi img)).timeStart = (addNdvi (addLST img)).timeStart ∧
    (addLST (addNdvi img)).cloudCover = (addNdvi (addLST img)).cloudCover := by
  refine ⟨?_, ?_, ?_, rfl, rfl⟩
  · intro n p
    unfold getValue getBand
    rw [bands_addLST_addNdvi, bands_addNdvi_addLST,
        lookup_swap_pair img.bands "NDVI" "LST" (ndviBand img) (lstBand img)
          (by decide) n]
  · rw [bands_addLST_addNdvi]; simp
  · rw [bands_addNdvi_addLST]; simp

lemma sortQ_pair (x y : ℚ) : sortQ [x, y] = if x ≤ y then [x, y] else [y, x] := by
  simp [sortQ, insertLe]

lemma medianQ_pair (x y : ℚ) : medianQ [x, y] = some ((x + y) / 2) := by
  unfold medianQ
  rw [sortQ_pair]
  by_cases h : x ≤ y
  · rw [if_pos h]
    simp [medianOfSorted]
  · rw [if_neg h]
    simp [medianOfSorted, add_comm]

lemma pearsonR_nil : pearsonR [] = none := by
  unfold pearsonR
  rw [if_pos]
  exact Or.inl (by norm_num)

/-- C7: the scene filter keeps exactly the scenes that intersect the
region, have timestamp in [start, end) (start inclusive, end exclusive)
and cloud cover strictly below the threshold; it preserves
ascending-timestamp order, and an empty result is returned without
error. -/
theorem scene_filter_correct (raw : List Image) (region : Region)
    (startT endT : Int) (maxCloud : ℚ) :
    (∀ img, img ∈ sceneFilter raw region startT endT maxCloud ↔
        img ∈ raw ∧ intersectsRegion img region = true ∧
          startT ≤ img.timeStart ∧ img.timeStart < endT ∧
          img.cloudCover < maxCloud) ∧
    List.Sublist (sceneFilter raw region startT endT maxCloud) raw ∧
    (List.Pairwise (fun a b => a.timeStart ≤ b.timeStart) raw →
      List.Pairwise (fun a b => a.timeStart ≤ b.timeStart)
        (sceneFilter raw region startT endT maxCloud)) ∧
    (raw = [] → sceneFilter raw region startT endT maxCloud = []) := by
  refine ⟨?_, List.filter_sublist _, ?_, ?_⟩
  · intro img
    unfold sceneFilter
    rw [List.mem_filter]
    unfold sceneOk
    constructor
    · rintro ⟨hm, hp⟩
      simp only [Bool.and_eq_true, decide_eq_true_eq] at hp
      exact ⟨hm, hp.1.1.1, hp.1.1.2, hp.1.2, hp.2⟩
    · rintro ⟨hm, h1, h2, h3, h4⟩
      refine ⟨hm, ?_⟩
      simp [h1, h2, h3, h4]
  · intro hp
    exact List.Pairwise.sublist (List.filter_sublist _) hp
  · intro h
    subst h
    rfl

/-- Evaluates scene_filter_correct on a two-scene archive: the clear scene
(cloud 5) is kept, the cloudy one (cloud 20) is dropped, and
ascending-timestamp order is preserved. -/
theorem scene_filter_witness :
    imgClear ∈ sceneFilter [imgClear, imgCloudy] [0] 0 100 15 ∧
    imgCloudy ∉ sceneFilter [imgClear, imgCloudy] [0] 0 100 15 ∧
    List.Pairwise (fun a b => a.timeStart ≤ b.timeStart)
      (sceneFilter [imgClear, imgCloudy] [0] 0 100 15) := by
  have h := scene_filter_correct [imgClear, imgCloudy] [0] 0 100 15
  refine ⟨?_, ?_, ?_⟩
  · exact (h.1 imgClear).mpr
      ⟨List.mem_cons_self _ _, rfl, by norm_num [imgClear], by norm_num [imgClear],
        by norm_num [imgClear]⟩
  · intro hc
    have := ((h.1 imgCloudy).mp hc).2.2.2.2
    norm_num [imgCloudy] at this
  · apply h.2.2.1
    refine List.pairwise_cons.mpr ⟨?_, ?_⟩
    · intro b hb
      simp only [List.mem_singleton] at hb
      subst hb
      norm_num [imgClear, imgCloudy]
    · simp

/-- C5: the composite value at a pixel inside the region is the median of
that pixel's valid values across the scenes; zero valid contributions give
no-data, and an even number of contributions uses the mean of the two
central order statistics, so contributions 10 and 20 yield 15. -/
theorem median_composite_correct (coll : List Image) (b : String)
    (region : Region) (p : Nat) (hin : region.contains p = true) :
    medianComposite coll b region p = medianQ (contributions coll b p) ∧
    (contributions coll b p = [] → medianComposite coll b region p = none) ∧
    (∀ x y : ℚ, contributions coll b p = [x, y] →
        medianComposite coll b region p = some ((x + y) / 2)) := by
  have hdef : medianComposite coll b region p = medianQ (contributions coll b p) := by
    unfold medianComposite
    rw [hin]
    rfl
  refine ⟨hdef, ?_, ?_⟩
  · intro h
    rw [hdef, h]
    rfl
  · intro x y h
    rw [hdef, h, medianQ_pair]

/-- Evaluates median_composite_correct on a three-scene collection whose
NDVI values at pixel 0 are 10, masked, 20: the composite value is 15. -/
theorem median_composite_witness :
    medianComposite [imgTen, imgMasked, imgTwenty] "NDVI" [0] 0 = some 15 := by
  have h := median_composite_correct [imgTen, imgMasked, imgTwenty] "NDVI" [0] 0 rfl
  rw [h.2.2 10 20 rfl]
  norm_num

/-- C6: both the mean-aggregation and the correlation time series have
exactly one entry per input scene: entry i carries scene i's timestamp and
its zonal statistic, a scene with zero valid pixels inside the region
yields a no-data entry rather than being dropped, and both series have the
length of the input collection. -/
theorem series_length_invariant (coll : List Image) (region : Region) (b : String) :
    (meanSeries coll region b).length = coll.length ∧
    (correlSeries coll region).length = coll.length ∧
    (∀ (i : Nat) (img : Image), coll[i]? = some img →
      (meanSeries coll region b)[i]?
          = some (img.timeStart, meanQ (validValues img region b)) ∧
      (correlSeries coll region)[i]?
          = some (img.timeStart, pearsonR (validPairs img region "LST" "NDVI")) ∧
      (validValues img region b = [] →
        (meanSeries coll region b)[i]? = some (img.timeStart, none)) ∧
      (validPairs img region "LST" "NDVI" = [] →
        (correlSeries coll region)[i]? = some (img.timeStart, none))) := by
  refine ⟨by simp [meanSeries], by simp [correlSeries], ?_⟩
  intro i img hi
  have hm : (meanSeries coll region b)[i]?
      = some (img.timeStart, meanQ (validValues img region b)) := by
    unfold meanSeries
    rw [List.getElem?_map, hi]
    rfl
  have hc : (correlSeries coll region)[i]?
      = some (img.timeStart, pearsonR (validPairs img region "LST" "NDVI")) := by
    unfold correlSeries
    rw [List.getElem?_map, hi]
    rfl
  refine ⟨hm, hc, ?_, ?_⟩
  · intro h
    rw [hm, h]
    rfl
  · intro h
    rw [hc, h, pearsonR_nil]

/-- Evaluates series_length_invariant on a one-scene collection whose NDVI
band is fully masked: both series have one entry, and it is a no-data
entry carrying the scene's timestamp. -/
theorem series_length_invariant_witness :
    (meanSeries [imgMasked] [0] "NDVI").length = 1 ∧
    (meanSeries [imgMasked] [0] "NDVI")[0]? = some (3, none) ∧
    (correlSeries [imgMasked] [0])[0]? = some (3, none) := by
  have h := series_length_invariant [imgMasked] [0] "NDVI"
  have h0 := h.2.2 0 imgMasked rfl
  refine ⟨h.1, ?_, ?_⟩
  · rw [h0.2.2.1 rfl]
    rfl
  · rw [h0.2.2.2 rfl]
    rfl

/-! Lemmas for the Pearson correlation of affinely related pixel pairs. -/

lemma sum_map_affine (c m : ℚ) (xs : List ℚ) :
    (xs.map (fun x => c - m * x)).sum = (xs.length : ℚ) * c - m * xs.sum := by
  induction xs with
  | nil => simp
  | cons a t ih =>
    simp only [List.map_cons, List.sum_cons, ih, List.length_cons]
    push_cast
    ring

lemma listMean_affine (c m : ℚ) (xs : List ℚ) (hne : xs ≠ []) :
    listMean (xs.map (fun x => c - m * x)) = c - m * listMean xs := by
  have hlen : (xs.length : ℚ) ≠ 0 := by
    have h0 : xs.length ≠ 0 := fun h => hne (List.length_eq_zero.mp h)
    exact_mod_cast h0
  unfold listMean
  rw [List.length_map, sum_map_affine]
  field_simp
  ring

lemma sqDev_affine (c m : ℚ) (xs : List ℚ) (hne : xs ≠ []) :
    sqDev (xs.map (fun x => c - m * x)) = m * m * sqDev xs := by
  unfold sqDev
  rw [listMean_affine c m xs hne]
  have h1 : List.map
        (fun y => (y - (c - m * listMean xs)) * (y - (c - m * listMean xs)))
        (List.map (fun x => c - m * x) xs)
      = List.map (fun x => m * m * ((x - listMean xs) * (x - listMean xs))) xs := by
    rw [List.map_map]
    apply List.map_congr_left
    intro x _
    simp only [Function.comp_apply]
    ring
  rw [h1, List.sum_map_mul_left]

lemma map_snd_affine (ps : List (ℚ × ℚ)) (c m : ℚ)
    (haff : ∀ q ∈ ps, q.2 = c - m * q.1) :
    ps.map Prod.snd = (ps.map Prod.fst).map (fun x => c - m * x) := by
  rw [List.map_map]
  apply List.map_congr_left
  intro q hq
  simp only [Function.comp_apply]
  exact haff q hq

lemma pairsVarY_affine (ps : List (ℚ × ℚ)) (c m : ℚ) (hne : ps ≠ [])
    (haff : ∀ q ∈ ps, q.2 = c - m * q.1) :
    pairsVarY ps = m * m * pairsVarX ps := by
  have hne2 : ps.map Prod.fst ≠ [] := fun h => hne (List.map_eq_nil_iff.mp h)
  unfold pairsVarY pairsVarX
  rw [map_snd_affine ps c m haff, sqDev_affine c m _ hne2]

lemma pairsCov_affine (ps : List (ℚ × ℚ)) (c m : ℚ) (hne : ps ≠ [])
    (haff : ∀ q ∈ ps, q.2 = c - m * q.1) :
    pairsCov ps = -(m * sqDev (ps.map Prod.fst)) := by
  have hne2 : ps.map Prod.fst ≠ [] := fun h => hne (List.map_eq_nil_iff.mp h)
  have hmy : listMean (ps.map Prod.snd)
      = c - m * listMean (ps.map Prod.fst) := by
    rw [map_snd_affine ps c m haff, listMean_affine c m _ hne2]
  unfold pairsCov
  rw [hmy]
  have h1 : List.map
        (fun q : ℚ × ℚ => (q.1 - listMean (ps.map Prod.fst))
          * (q.2 - (c - m * listMean (ps.map Prod.fst)))) ps
      = List.map
          (fun q : ℚ × ℚ => -m * ((q.1 - listMean (ps.map Prod.fst))
            * (q.1 - listMean (ps.map Prod.fst)))) ps := by
    apply List.map_congr_left
    intro q hq
    rw [haff q hq]
    ring
  rw [h1, List.sum_map_mul_left]
  unfold sqDev
  rw [List.map_map, neg_mul]
  rfl

lemma sqDev_pos_of_mem_ne (xs : List ℚ) (a : ℚ) (ha : a ∈ xs)
    (hne : a ≠ listMean xs) : 0 < sqDev xs := by
  unfold sqDev
  have hterm : 0 < (a - listMean xs) * (a - listMean xs) :=
    mul_self_pos.mpr (sub_ne_zero.mpr hne)
  have hmem : (a - listMean xs) * (a - listMean xs)
      ∈ xs.map (fun x => (x - listMean xs) * (x - listMean xs)) :=
    List.mem_map_of_mem _ ha
  have hnn : ∀ y ∈ xs.map (fun x => (x - listMean xs) * (x - listMean xs)),
      (0 : ℚ) ≤ y := by
    intro y hy
    rcases List.mem_map.mp hy with ⟨x, _, rfl⟩
    exact mul_self_nonneg _
  exact lt_of_lt_of_le hterm (List.single_le_sum hnn _ hmem)

lemma sqDev_pos_of_two_mem (xs : List ℚ) (a b : ℚ) (ha : a ∈ xs) (hb : b ∈ xs)
    (hab : a ≠ b) : 0 < sqDev xs := by
  by_cases hx : a = listMean xs
  · have hbx : b ≠ listMean xs := fun h => hab (hx.trans h.symm)
    exact sqDev_pos_of_mem_ne xs b hb hbx
  · exact sqDev_pos_of_mem_ne xs a ha hx

lemma pearson_affine_neg (ps : List (ℚ × ℚ)) (c m : ℚ) (hm : 0 < m)
    (h2 : 2 ≤ ps.length)
    (haff : ∀ q ∈ ps, q.2 = c - m * q.1)
    (hvar : 0 < sqDev (ps.map Prod.fst)) :
    pearsonR ps = some (-1) := by
  have hne : ps ≠ [] := by
    intro h
    rw [h] at h2
    simp at h2
  have hvy : pairsVarY ps = m * m * sqDev (ps.map Prod.fst) :=
    pairsVarY_affine ps c m hne haff
  have hcov : pairsCov ps = -(m * sqDev (ps.map Prod.fst)) :=
    pairsCov_affine ps c m hne haff
  have hvypos : (0 : ℚ) < m * m * sqDev (ps.map Prod.fst) :=
    mul_pos (mul_pos hm hm) hvar
  have hvx : pairsVarX ps = sqDev (ps.map Prod.fst) := rfl
  unfold pearsonR
  rw [if_neg]
  · rw [hcov, hvx, hvy]
    congr 1
    have hms : (0 : ℝ) < (m : ℝ) * (sqDev (ps.map Prod.fst) : ℝ) := by
      exact_mod_cast mul_pos hm hvar
    push_cast
    rw [show (sqDev (ps.map Prod.fst) : ℝ)
          * ((m : ℝ) * (m : ℝ) * (sqDev (ps.map Prod.fst) : ℝ))
        = ((m : ℝ) * (sqDev (ps.map Prod.fst) : ℝ)) ^ 2 by ring]
    rw [Real.sqrt_sq hms.le, neg_div, div_self hms.ne']
  · push_neg
    refine ⟨by omega, ?_, ?_⟩
    · rw [hvx]
      exact hvar.ne'
    · rw [hvy]
      exact hvypos.ne'



lemma correlSeries_entry (coll : List Image) (region : Region) (j : Nat)
    (im2 : Image) (hj : coll[j]? = some im2) :
    (correlSeries coll region)[j]?
      = some (im2.timeStart, pearsonR (validPairs im2 region "LST" "NDVI")) := by
  unfold correlSeries
  rw [List.getElem?_map, hj]
  rfl

/-- C1: every entry of the correlation time series is the Pearson r of the
valid (LST, NDVI) pixel pairs inside the region for its own scene — a
per-date spatial correlation, not a correlation of means across dates —
and a scene whose pixel pairs are perfectly anti-correlated (first
coordinates strictly ascending, second coordinates an affine function
with negative slope of the first) over at least 3 pixels has
entry exactly -1. -/
theorem correlation_per_scene (coll : List Image) (region : Region)
    (i : Nat) (img : Image) (c m : ℚ)
    (hi : coll[i]? = some img) (hm : 0 < m)
    (h3 : 3 ≤ (validPairs img region "LST" "NDVI").length)
    (hasc : List.Chain' (· < ·) ((validPairs img region "LST" "NDVI").map Prod.fst))
    (haff : ∀ q ∈ validPairs img region "LST" "NDVI", q.2 = c - m * q.1) :
    (∀ (j : Nat) (im2 : Image), coll[j]? = some im2 →
        (correlSeries coll region)[j]?
          = some (im2.timeStart, pearsonR (validPairs im2 region "LST" "NDVI"))) ∧
    (correlSeries coll region)[i]? = some (img.timeStart, some (-1)) := by
  refine ⟨fun j im2 hj => correlSeries_entry coll region j im2 hj, ?_⟩
  rw [correlSeries_entry coll region i img hi]
  have hfstlen : 2 ≤ ((validPairs img region "LST" "NDVI").map Prod.fst).length := by
    rw [List.length_map]
    omega
  have hvar : 0 < sqDev ((validPairs img region "LST" "NDVI").map Prod.fst) := by
    rcases hxs : (validPairs img region "LST" "NDVI").map Prod.fst
      with _ | ⟨a, _ | ⟨b, t⟩⟩
    · rw [hxs] at hfstlen
      simp at hfstlen
    · rw [hxs] at hfstlen
      simp at hfstlen
    · rw [hxs] at hasc
      exact sqDev_pos_of_two_mem _ a b (by simp) (by simp)
        (ne_of_lt (List.chain'_cons.mp hasc).1)
  rw [pearson_affine_neg (validPairs img region "LST" "NDVI") c m hm
    (by omega) haff hvar]

/-- Evaluates correlation_per_scene on the scene imgAnti, whose three
pixel pairs (0,4), (1,3), (2,2) are perfectly anti-correlated: the
series entry is exactly -1. -/
theorem correlation_per_scene_witness :
    (correlSeries [imgAnti] [0, 1, 2])[0]? = some (100, (some (-1) : Option ℝ)) := by
  have hps : validPairs imgAnti [0, 1, 2] "LST" "NDVI" = [(0, 4), (1, 3), (2, 2)] := rfl
  have h := correlation_per_scene [imgAnti] [0, 1, 2] 0 imgAnti 4 1 rfl
    (by norm_num)
    (by rw [hps]; simp)
    (by
      rw [hps]
      simp only [List.map_cons, List.map_nil]
      refine List.chain'_cons.mpr ⟨by norm_num, List.chain'_cons.mpr
        ⟨by norm_num, List.chain'_singleton _⟩⟩)
    (by
      rw [hps]
      intro q hq
      simp only [List.mem_cons, List.not_mem_nil, or_false] at hq
      rcases hq with rfl | rfl | rfl <;> norm_num)
  rw [h.2]
  rfl

/-- C2: a scene contributing fewer than 2 valid pixel pairs inside the
region, or whose pairs have zero variance in either band, produces a
no-data entry in the correlation time series — not a fault and not a
fabricated value — and every other scene's entry is still its own spatial
correlation, so the rest of the batch is unaffected. -/
theorem correlation_degenerate (coll : List Image) (region : Region)
    (i : Nat) (img : Image) (hi : coll[i]? = some img)
    (hdeg : (validPairs img region "LST" "NDVI").length < 2 ∨
        pairsVarX (validPairs img region "LST" "NDVI") = 0 ∨
        pairsVarY (validPairs img region "LST" "NDVI") = 0) :
    (correlSeries coll region)[i]? = some (img.timeStart, none) ∧
    (∀ (j : Nat) (im2 : Image), coll[j]? = some im2 →
        (correlSeries coll region)[j]?
          = some (im2.timeStart, pearsonR (validPairs im2 region "LST" "NDVI"))) := by
  refine ⟨?_, fun j im2 hj => correlSeries_entry coll region j im2 hj⟩
  rw [correlSeries_entry coll region i img hi]
  have : pearsonR (validPairs img region "LST" "NDVI") = none := by
    unfold pearsonR
    rw [if_pos hdeg]
  rw [this]

/-- Evaluates correlation_degenerate on a two-scene batch whose first
scene contributes a single valid pixel pair: its entry is no-data while
the second scene's entry is still its own spatial correlation. -/
theorem correlation_degenerate_witness :
    (correlSeries [imgDeg, imgAnti] [0, 1, 2])[0]? = some (50, none) ∧
    (correlSeries [imgDeg, imgAnti] [0, 1, 2])[1]?
      = some (100, pearsonR (validPairs imgAnti [0, 1, 2] "LST" "NDVI")) := by
  have h := correlation_degenerate [imgDeg, imgAnti] [0, 1, 2] 0 imgDeg rfl
    (Or.inl (by decide))
  refine ⟨?_, ?_⟩
  · rw [h.1]
    rfl
  · rw [h.2 1 imgAnti rfl]
    rfl

end LstNdvi
